import Mathlib

/-!
Verification of the signaling / media-synchronization core of the TrueGather
conferencing client.

The development shallowly embeds the relevant functions and state of
  - src/app/composables/useSignalingWs.ts   (SignalingChannel)
  - src/app/composables/useWebRtcSubscriber.ts (RemoteFeedAggregator)
  - src/app/stores/room.ts                  (SubscriptionSynchronizer)
as executable Lean definitions.  JavaScript Map objects are embedded as
association lists with unique keys; timers are abstracted by their numeric
handles; promises are settled by explicit settle events in a trace semantics.
-/

namespace TrueGather

/-! ## Association-list model of a JavaScript Map

JS Map semantics: set overwrites the value of an existing key in place and
appends new keys at the end; delete removes the key; iteration order is
insertion order.  Keys are unique in every reachable Map state, so erasure
is modelled as removing every entry with the key. -/

def assocFind {β : Type} : List (String × β) → String → Option β
  | [], _ => none
  | (k, v) :: rest, key => if key = k then some v else assocFind rest key

def assocSet {β : Type} : List (String × β) → String → β → List (String × β)
  | [], key, v => [(key, v)]
  | (k, w) :: rest, key, v =>
      if k = key then (k, v) :: rest else (k, w) :: assocSet rest key v

def assocErase {β : Type} : List (String × β) → String → List (String × β)
  | [], _ => []
  | (k, v) :: rest, key =>
      if k = key then assocErase rest key else (k, v) :: assocErase rest key

def uniqKeys {β : Type} (l : List (String × β)) : Prop :=
  (l.map Prod.fst).Nodup

/-! ## Signaling channel: wire envelopes and pending-request table
(src/app/composables/useSignalingWs.ts) -/

/-- Wire unit of the signaling protocol: `{type, request_id?, payload}`.
The payload is kept abstract as a string. -/
structure Envelope where
  type : String
  request_id : Option String
  payload : String
deriving DecidableEq, Repr

/-- The pending-request table `pendingRequests : Map<string, PendingRequest>`;
each entry keeps the numeric handle of its `setTimeout` timer. -/
abbrev Pending := List (String × Nat)

/-- How a PendingRequest promise is settled. -/
inductive SettleOutcome where
  | resolved (env : Envelope)
  | rejectedError (msg : String)
  | rejectedTimeout
  | rejectedClosed
deriving DecidableEq, Repr

/-- What `handleMessage` does with a decoded frame: settle a correlated
pending request (also cancelling its timer), or dispatch to event handlers. -/
inductive HandleAction where
  | settle (rid : String) (timerId : Nat) (outcome : SettleOutcome)
  | dispatch (msg : Envelope)
deriving DecidableEq, Repr

/-- Embeds `handleMessage` (useSignalingWs.ts lines 178-211) after a
successful JSON decode.  `message.request_id && pendingRequests.has(...)`:
an absent or empty (falsy) request id, or an id with no matching pending
entry, falls through to handler dispatch; otherwise the entry is removed,
its timer cleared, and the request rejected with the decoded error message
when the type is the reserved "error" tag, else resolved with the envelope. -/
def handleMessage (p : Pending) (msg : Envelope) : Pending × HandleAction :=
  match msg.request_id with
  | none => (p, HandleAction.dispatch msg)
  | some rid =>
    if rid = "" then (p, HandleAction.dispatch msg)
    else
      match assocFind p rid with
      | none => (p, HandleAction.dispatch msg)
      | some t =>
          (assocErase p rid,
           HandleAction.settle rid t
             (if msg.type = "error" then SettleOutcome.rejectedError msg.payload
              else SettleOutcome.resolved msg))

/-- Events acting on the pending-request table: a successful `sendRequest`
registration, an inbound frame, a request-timeout firing, and `disconnect`. -/
inductive WireEvent where
  | send (rid : String) (timerId : Nat)
  | recv (msg : Envelope)
  | timerFire (rid : String)
  | disconnect
deriving DecidableEq, Repr

/-- One event step over the pending table, returning the settles it emits.
`send` registers via Map.set; `recv` runs `handleMessage`; `timerFire`
mirrors the timeout callback in `sendRequest` (delete + reject) and can only
fire while the entry is live (resolution clears the timer); `disconnect`
rejects every outstanding request and clears the table. -/
def stepEvent (p : Pending) : WireEvent → Pending × List (String × SettleOutcome)
  | WireEvent.send rid t => (assocSet p rid t, [])
  | WireEvent.recv msg =>
      match handleMessage p msg with
      | (p2, HandleAction.settle rid _ o) => (p2, [(rid, o)])
      | (p2, HandleAction.dispatch _) => (p2, [])
  | WireEvent.timerFire rid =>
      match assocFind p rid with
      | some _ => (assocErase p rid, [(rid, SettleOutcome.rejectedTimeout)])
      | none => (p, [])
  | WireEvent.disconnect =>
      ([], p.map (fun e => (e.1, SettleOutcome.rejectedClosed)))

def runEvents (p : Pending) : List WireEvent → Pending × List (String × SettleOutcome)
  | [] => (p, [])
  | e :: rest =>
      let r := stepEvent p e
      let r2 := runEvents r.1 rest
      (r2.1, r.2 ++ r2.2)

def countSends (rid : String) : List WireEvent → Nat
  | [] => 0
  | WireEvent.send r _ :: rest => (if r = rid then 1 else 0) + countSends rid rest
  | _ :: rest => countSends rid rest

def settlesFor (rid : String) (s : List (String × SettleOutcome)) : Nat :=
  (s.filter (fun e => e.1 = rid)).length

def pendInd (p : Pending) (rid : String) : Nat :=
  if (assocFind p rid).isSome then 1 else 0

/-- Correlation ids generated by `generateRequestId` are nonempty and never
reused while outstanding (fresh `Date.now` + random suffix); this predicate
restricts traces to such well-formed id allocation. -/
def freshSends (p : Pending) : List WireEvent → Bool
  | [] => true
  | e :: rest =>
      (match e with
       | WireEvent.send rid _ => decide (rid ≠ "") && (assocFind p rid).isNone
       | _ => true)
      && freshSends (stepEvent p e).1 rest

/-! ## Reconnection policy (useSignalingWs.ts lines 108-115 and 160-173) -/

/-- Backoff computed by `scheduleReconnect`:
`Math.min(INITIAL_BACKOFF * Math.pow(2, reconnectAttempts), 30000)`. -/
def backoffDelay (attempts : Nat) : Nat :=
  min (1000 * 2 ^ attempts) 30000

/-- Module-level reconnection state of the channel, with a log of every
backoff delay that has been scheduled. -/
structure WsReconn where
  reconnectAttempts : Nat
  reconnectTimer : Option Nat
  currentWsUrl : Option String
  schedLog : List Nat
deriving DecidableEq, Repr

/-- Embeds `scheduleReconnect`: clears any previous timer, schedules a new
one after the exponential backoff, and increments the attempt counter. -/
def scheduleReconnect (s : WsReconn) : WsReconn :=
  { s with
    reconnectTimer := some (backoffDelay s.reconnectAttempts),
    reconnectAttempts := s.reconnectAttempts + 1,
    schedLog := s.schedLog ++ [backoffDelay s.reconnectAttempts] }

/-- Embeds the `socket.onclose` handler's reconnect decision:
`event.code !== 1000 && reconnectAttempts < MAX_RECONNECT_ATTEMPTS && currentWsUrl`. -/
def oncloseStep (code : Nat) (s : WsReconn) : WsReconn :=
  if code ≠ 1000 ∧ s.reconnectAttempts < 5 ∧ s.currentWsUrl.isSome then
    scheduleReconnect s
  else s

def runCloses (s : WsReconn) (codes : List Nat) : WsReconn :=
  codes.foldl (fun st c => oncloseStep c st) s

/-- Reconnection state right after a successful open (`onOpen` resets the
attempt counter and records the connected url). -/
def freshReconn (url : String) : WsReconn :=
  { reconnectAttempts := 0, reconnectTimer := none,
    currentWsUrl := some url, schedLog := [] }

/-- Effect of `disconnect()` on the reconnection state: the scheduled timer
is cleared and the remembered url is dropped. -/
def disconnectReconn (s : WsReconn) : WsReconn :=
  { s with reconnectTimer := none, currentWsUrl := none }

/-! ## Channel state, disconnect and sendRequest
(useSignalingWs.ts lines 216-241 and 283-304) -/

/-- Module-level singleton state of the signaling channel. -/
structure ChannelState where
  ws : Option Nat
  isConnected : Bool
  pending : Pending
  reconnectTimer : Option Nat
  currentWsUrl : Option String
  reconnectAttempts : Nat
deriving DecidableEq, Repr

/-- Observable side effects of channel teardown. -/
inductive TeardownEffect where
  | clearTimer (t : Nat)
  | closeSocket (sock : Nat) (code : Nat) (reason : String)
  | rejectPending (rid : String) (err : String)
deriving DecidableEq, Repr

/-- Embeds `disconnect()`: clear the reconnect timer, forget the url, close
the socket with normal-closure code 1000, mark disconnected, then clear each
pending request's timeout and reject it with the channel-closed error, and
empty the table.  The attempt counter `reconnectAttempts` is not touched. -/
def disconnectChannel (s : ChannelState) : ChannelState × List TeardownEffect :=
  let e1 : List TeardownEffect :=
    match s.reconnectTimer with
    | some t => [TeardownEffect.clearTimer t]
    | none => []
  let e2 : List TeardownEffect :=
    match s.ws with
    | some sock => [TeardownEffect.closeSocket sock 1000 "Client disconnect"]
    | none => []
  let e3 : List TeardownEffect :=
    s.pending.flatMap (fun e =>
      [TeardownEffect.clearTimer e.2,
       TeardownEffect.rejectPending e.1 "WebSocket disconnected"])
  ({ ws := none, isConnected := false, pending := [], reconnectTimer := none,
     currentWsUrl := none, reconnectAttempts := s.reconnectAttempts },
   e1 ++ e2 ++ e3)

/-- Result of a `sendRequest` call: the updated channel state, the timeout
timer it started, the envelope it transmitted, and the error it threw. -/
structure SendResult where
  state : ChannelState
  timerStarted : Option Nat
  sent : Option Envelope
  err : Option String
deriving DecidableEq, Repr

/-- Embeds `sendRequest` up to its suspension point: it throws
`WebSocket not connected` before any registration when no socket exists or
the connected flag is down (`!ws.value || !isConnected.value`); otherwise it
starts the 30s timeout, registers the PendingRequest and transmits the
envelope carrying the fresh correlation id. -/
def sendRequest (s : ChannelState) (reqType payload rid : String) (timerId : Nat) :
    SendResult :=
  if s.ws.isNone || !s.isConnected then
    { state := s, timerStarted := none, sent := none,
      err := some "WebSocket not connected" }
  else
    { state := { s with pending := assocSet s.pending rid timerId },
      timerStarted := some timerId,
      sent := some { type := reqType, request_id := some rid, payload := payload },
      err := none }

/-! ## Event-handler registry and dispatch (useSignalingWs.ts lines 197-210,
263-278).  Handlers live in a JS Set, which iterates in insertion order; a
handler is abstracted by an identity and by whether its invocation throws. -/

structure Handler where
  hid : Nat
  throws : Bool
deriving DecidableEq, Repr

/-- Embeds `on(type, handler)`: `Set.add` keeps the original position of an
already-registered handler and appends a new one. -/
def addHandler (hs : List Handler) (h : Handler) : List Handler :=
  if hs.any (fun x => x.hid = h.hid) then hs else hs ++ [h]

/-- Runs `handlers.forEach(handler => handler(message))`: invocations happen
in registration order; an exception thrown by a handler propagates out of
`forEach`, so iteration stops at the throwing handler.  Returns the ids that
were invoked and whether an exception escaped. -/
def runHandlers : List Handler → List Nat × Bool
  | [] => ([], false)
  | h :: rest =>
      if h.throws then ([h.hid], true)
      else
        let r := runHandlers rest
        (h.hid :: r.1, r.2)

/-- Embeds the dispatch tail of `handleMessage` for a non-correlated frame:
typed handlers first, then wildcard handlers; an exception escaping the
typed `forEach` skips the wildcard loop (it lands in the surrounding
`try/catch`, which only logs, so the channel survives).  Returns the ids of
the handlers that were invoked for the frame. -/
def dispatchFrame (typed wildcard : List Handler) : List Nat :=
  let r1 := runHandlers typed
  if r1.2 then r1.1
  else r1.1 ++ (runHandlers wildcard).1

/-! ## Subscription synchronizer (src/app/stores/room.ts lines 100-142) -/

/-- A roster entry, as stored in `publishers.value` (the `joined_at`
wall-clock timestamp is omitted). -/
structure Publisher where
  feed_id : String
  display : String
  user_id : String
deriving DecidableEq, Repr

/-- The feed set computed at the start of a sync run: every known publisher
except the local session's own user
(`Array.from(publishers.values()).filter(p => p.user_id !== userId).map(...)`). -/
def computeFeeds (roster : List Publisher) (uid : String) : List String :=
  (roster.filter (fun p => p.user_id ≠ uid)).map (fun p => p.feed_id)

/-- Ambient state read by one `syncSubscriptions` invocation: the joined and
connected flags and the roster and user id at that moment. -/
structure SyncCallCtx where
  joined : Bool
  connected : Bool
  roster : List Publisher
  uid : String
deriving Repr

/-- Synchronizer flags plus a log of the feed set computed by each sync run
that has started. -/
structure SyncState where
  inProgress : Bool
  pending : Bool
  runs : List (List String)
deriving DecidableEq, Repr

/-- Embeds the entry of `syncSubscriptions()`: if a sync is in progress, set
the pending flag and return; if the session is not joined or the channel is
not connected, return without touching the flags; otherwise mark a run in
progress, clear the pending flag, and start a sync over the feed set
computed from the roster read at this moment. -/
def requestSyncStep (ctx : SyncCallCtx) (s : SyncState) : SyncState :=
  if s.inProgress then { s with pending := true }
  else if !(ctx.joined && ctx.connected) then s
  else
    { inProgress := true, pending := false,
      runs := s.runs ++ [computeFeeds ctx.roster ctx.uid] }

/-- Embeds the `finally` block that runs when the in-flight sync completes:
clear the in-progress flag on every completion path (`success` records
whether the body succeeded and is irrelevant to the flag handling), then, if
the pending flag was set, clear it and immediately re-invoke
`syncSubscriptions` against the ambient state at completion time. -/
def completeStep (_success : Bool) (ctx : SyncCallCtx) (s : SyncState) : SyncState :=
  let s1 := { s with inProgress := false }
  if s1.pending then requestSyncStep ctx { s1 with pending := false }
  else s1

/-! ## Answer-SDP gate and inbound-track attribution
(src/app/composables/useWebRtcSubscriber.ts) -/

def isPrefixL : List Char → List Char → Bool
  | [], _ => true
  | _ :: _, [] => false
  | p :: ps, c :: cs => p = c && isPrefixL ps cs

def hasSubList (pat : List Char) : List Char → Bool
  | [] => isPrefixL pat []
  | c :: cs => isPrefixL pat (c :: cs) || hasSubList pat cs

/-- JavaScript `s.includes(pat)`. -/
def strIncludes (s pat : String) : Bool :=
  hasSubList pat.data s.data

/-- Embeds the answer gate at the end of `subscribeMultiple` (lines 160-172):
`pc.localDescription?.sdp ?? null` is checked with
`if (!localSdp || !localSdp.includes('a=ice-ufrag')) throw ...`; a missing or
falsy (empty) local description, or one lacking the ice-ufrag attribute, is
refused instead of being returned to the signaling layer. -/
def checkLocalAnswer (localSdp : Option String) : Except String String :=
  match localSdp with
  | none => Except.error "Local SDP missing ice-ufrag"
  | some sdp =>
      if sdp = "" ∨ strIncludes sdp "a=ice-ufrag" = false then
        Except.error "Local SDP missing ice-ufrag"
      else Except.ok sdp

/-- Matches `pat` as a prefix of a char list, returning the remainder. -/
def prefixRest : List Char → List Char → Option (List Char)
  | [], s => some s
  | _ :: _, [] => none
  | p :: ps, c :: cs => if c = p then prefixRest ps cs else none

/-- Matches `pat` as a suffix of a char list, returning what precedes it. -/
def suffixCore (pat s : List Char) : Option (List Char) :=
  match prefixRest pat.reverse s.reverse with
  | some restRev => some restRev.reverse
  | none => none

/-- Strategy 1 of `pc.ontrack`: the grouping-stream id against the regex
`^truegather-(.+)$` (capture group nonempty). -/
def parseStreamFeed (sid : String) : Option String :=
  match prefixRest "truegather-".data sid.data with
  | some rest => if rest = [] then none else some (String.mk rest)
  | none => none

/-- Strategy 2 of `pc.ontrack`: the track's own id against the regex
`^(.+)-(?:audio|video)$`; the greedy nonempty capture is everything before
the final `-audio` or `-video` suffix. -/
def parseTrackFeed (tid : String) : Option String :=
  match suffixCore "-audio".data tid.data with
  | some core => if core = [] then none else some (String.mk core)
  | none =>
      match suffixCore "-video".data tid.data with
      | some core => if core = [] then none else some (String.mk core)
      | none => none

/-- Strategy 1 including the truthiness guard
`if (incomingStream && incomingStream.id)`: an absent stream or an empty
stream id yields nothing. -/
def streamFeedOf (streamId : Option String) : Option String :=
  match streamId with
  | some sid => if sid = "" then none else parseStreamFeed sid
  | none => none

/-- Embeds the feed attribution of `pc.ontrack` (lines 80-105): strategy 1
(grouping-stream id), else strategy 2 (track id), else the first id of the
currently desired feed set (`feedFromStream ?? feedIds[0]`); a missing or
falsy result drops the track (`if (!assignedFeed) ... return`). -/
def assignFeed (streamId : Option String) (trackId : String) (feedIds : List String) :
    Option String :=
  let inferred : Option String :=
    match streamFeedOf streamId with
    | some f => some f
    | none => parseTrackFeed trackId
  match inferred with
  | some f => some f
  | none =>
      match feedIds with
      | [] => none
      | f :: _ => if f = "" then none else some f

/-- Embeds the stream update of `pc.ontrack` (lines 115-119): a track whose
id is already present in the feed's stream is not added again, otherwise it
is appended, so audio and video accumulate without overwriting each other. -/
def addTrackIfNew (tracks : List String) (trackId : String) : List String :=
  if trackId ∈ tracks then tracks else tracks ++ [trackId]

/-! ## Subscriber bookkeeping: shared peer connection of a feed group
(useWebRtcSubscriber.ts lines 54-72 and 207-222) -/

/-- One entry of the `subscriptions` map.  The peer connection object is
identified by an allocation number; `remoteStream` holds the ids of the
tracks accumulated for the feed (`none` models a null stream). -/
structure SubEntry where
  feedId : String
  pcId : Nat
  remoteStream : Option (List String)
  display : String
  userId : String
deriving DecidableEq, Repr

/-- Subscriber state: the feed-id-keyed map, the set of peer connections on
which `close()` has been called, and the next fresh connection identity. -/
structure SubscriberState where
  subscriptions : List (String × SubEntry)
  closedPcs : List Nat
  nextPcId : Nat
deriving DecidableEq, Repr

/-- Embeds the bookkeeping of `subscribeMultiple`: one new RTCPeerConnection
is created for the whole group, and a subscription entry is stored for each
feed id, each entry referencing that same connection
(`subscriptions.value.set(f, { ...subscription, feedId: f })`). -/
def subscribeMultipleStep (s : SubscriberState) (feedIds displays userIds : List String) :
    SubscriberState :=
  let pc := s.nextPcId
  let base : SubEntry :=
    { feedId := String.intercalate "," feedIds, pcId := pc, remoteStream := none,
      display := String.intercalate "," displays,
      userId := String.intercalate "," userIds }
  { subscriptions :=
      feedIds.foldl (fun acc f => assocSet acc f { base with feedId := f })
        s.subscriptions,
    closedPcs := s.closedPcs,
    nextPcId := pc + 1 }

/-- Embeds `unsubscribe(feedId)`: a missing feed is a no-op; otherwise the
entry's tracks are stopped, its peer connection is closed, and the entry is
removed from the map. -/
def unsubscribeStep (s : SubscriberState) (feedId : String) : SubscriberState :=
  match assocFind s.subscriptions feedId with
  | none => s
  | some entry =>
      { subscriptions := assocErase s.subscriptions feedId,
        closedPcs := s.closedPcs ++ [entry.pcId],
        nextPcId := s.nextPcId }

/-! ## Triggering events of the synchronizer
(src/app/stores/room.ts lines 268-390, useSignalingWs.ts lines 100-124) -/

/-- Actions performed by the room store's signaling handlers. -/
inductive RoomAction where
  | upsertPublisher (feedId display userId : String)
  | upsertParticipant (userId : String)
  | commitPublishers
  | commitParticipants
  | commitRemoteStreams
  | removePublisher (feedId : String)
  | removeRemoteStream (feedId : String)
  | unsubscribeFeed (feedId : String)
  | invokeSyncSubscriptions
  | markNotPublishing (userId : String)
deriving DecidableEq, Repr

/-- Embeds the `publisher_joined` handler: upsert the publisher, upsert the
participant when a user id is present, commit both maps, then request a
subscription sync. -/
def publisherJoinedActions (feedId display userId : String) : List RoomAction :=
  [RoomAction.upsertPublisher feedId display userId]
  ++ (if userId = "" then [] else [RoomAction.upsertParticipant userId])
  ++ [RoomAction.commitPublishers, RoomAction.commitParticipants,
      RoomAction.invokeSyncSubscriptions]

def findPublisher (roster : List Publisher) (feedId : String) : Option Publisher :=
  match roster with
  | [] => none
  | p :: rest => if p.feed_id = feedId then some p else findPublisher rest feedId

/-- Embeds the `publisher_left` handler: an unknown feed id returns early;
otherwise the publisher and its remote stream are removed, the feed is
unsubscribed, a subscription sync is requested, and the owning participant
is marked as no longer publishing. -/
def publisherLeftActions (roster : List Publisher) (feedId : String) : List RoomAction :=
  match findPublisher roster feedId with
  | none => []
  | some pub =>
      [RoomAction.removePublisher feedId, RoomAction.removeRemoteStream feedId,
       RoomAction.unsubscribeFeed feedId, RoomAction.commitPublishers,
       RoomAction.commitRemoteStreams, RoomAction.invokeSyncSubscriptions]
      ++ (if pub.user_id = "" then []
          else [RoomAction.markNotPublishing pub.user_id,
                RoomAction.commitParticipants])

/-- Actions performed by the channel when a (re)connection attempt opens. -/
inductive SigAction where
  | assignWs
  | setConnectedTrue
  | setConnectingFalse
  | resetReconnectAttempts
  | setCurrentUrl (url : String)
  | installMessageHandler
  | installCloseHandler
  | installErrorHandler
  | resolveConnectPromise
  | invokeSyncSubscriptions
deriving DecidableEq, Repr

/-- Embeds the `onOpen` callback of `connect` (useSignalingWs.ts lines
100-124), which is also the code path taken when the reconnect timer fires
(`scheduleReconnect` re-invokes `connect`): it records the socket, flags,
url and handlers and resolves the connect promise.  No other code in the
repository reacts to the re-established connection. -/
def onOpenActions (url : String) : List SigAction :=
  [SigAction.assignWs, SigAction.setConnectedTrue, SigAction.setConnectingFalse,
   SigAction.resetReconnectAttempts, SigAction.setCurrentUrl url,
   SigAction.installMessageHandler, SigAction.installCloseHandler,
   SigAction.installErrorHandler, SigAction.resolveConnectPromise]

/-! ## Association-list lemmas -/

theorem assocFind_set {β : Type} (l : List (String × β)) (k k2 : String) (v : β) :
    assocFind (assocSet l k2 v) k = if k = k2 then some v else assocFind l k := by
  induction l with
  | nil => simp [assocSet, assocFind]
  | cons e rest ih =>
      obtain ⟨a, b⟩ := e
      by_cases h : a = k2
      · subst h
        by_cases hk : k = a <;> simp [assocSet, assocFind, hk]
      · by_cases hk : k = a
        · subst hk
          simp [assocSet, h, assocFind]
        · simp [assocSet, h, assocFind, hk, ih]

theorem assocFind_erase {β : Type} (l : List (String × β)) (k k2 : String) :
    assocFind (assocErase l k2) k = if k = k2 then none else assocFind l k := by
  induction l with
  | nil => simp [assocErase, assocFind]
  | cons e rest ih =>
      obtain ⟨a, b⟩ := e
      by_cases h : a = k2
      · subst h
        by_cases hk : k = a
        · subst hk
          simp [assocErase, ih]
        · simp [assocErase, assocFind, hk, ih]
      · by_cases hk : k = a
        · subst hk
          simp [assocErase, h, assocFind, fun hh : k = k2 => h hh]
        · simp [assocErase, h, assocFind, hk, ih]

theorem assocFind_eq_none_iff {β : Type} (l : List (String × β)) (k : String) :
    assocFind l k = none ↔ k ∉ l.map Prod.fst := by
  induction l with
  | nil => simp [assocFind]
  | cons e rest ih =>
      obtain ⟨a, b⟩ := e
      by_cases hk : k = a
      · simp [assocFind, hk]
      · simp [assocFind, hk, ih]

theorem assocFind_append_of_none {β : Type} (l m : List (String × β)) (k : String)
    (h : assocFind l k = none) : assocFind (l ++ m) k = assocFind m k := by
  induction l with
  | nil => simp
  | cons e rest ih =>
      obtain ⟨a, b⟩ := e
      by_cases hk : k = a
      · simp [assocFind, hk] at h
      · simp [assocFind, hk] at h ⊢
        exact ih h

theorem assocFind_append_of_some {β : Type} (l m : List (String × β)) (k : String)
    (v : β) (h : assocFind l k = some v) : assocFind (l ++ m) k = some v := by
  induction l with
  | nil => simp [assocFind] at h
  | cons e rest ih =>
      obtain ⟨a, b⟩ := e
      by_cases hk : k = a
      · simp [assocFind, hk] at h ⊢
        exact h
      · simp [assocFind, hk] at h ⊢
        exact ih h

theorem assocSet_of_not_found {β : Type} (l : List (String × β)) (k : String) (v : β)
    (h : assocFind l k = none) : assocSet l k v = l ++ [(k, v)] := by
  induction l with
  | nil => simp [assocSet]
  | cons e rest ih =>
      obtain ⟨a, b⟩ := e
      by_cases hk : k = a
      · simp [assocFind, hk] at h
      · simp [assocFind, hk] at h
        have hak : ¬a = k := fun hh => hk hh.symm
        simp [assocSet, hak, ih h]

theorem assocErase_sublist {β : Type} (l : List (String × β)) (k : String) :
    List.Sublist (assocErase l k) l := by
  induction l with
  | nil => simp [assocErase]
  | cons e rest ih =>
      obtain ⟨a, b⟩ := e
      by_cases h : a = k
      · simp only [assocErase, if_pos h]
        exact ih.cons _
      · simp only [assocErase, if_neg h]
        exact ih.cons₂ _

theorem uniqKeys_erase {β : Type} (l : List (String × β)) (k : String)
    (h : uniqKeys l) : uniqKeys (assocErase l k) :=
  List.Nodup.sublist (List.Sublist.map Prod.fst (assocErase_sublist l k)) h

theorem uniqKeys_append_fresh {β : Type} (l : List (String × β)) (k : String) (v : β)
    (h : uniqKeys l) (hf : assocFind l k = none) : uniqKeys (l ++ [(k, v)]) := by
  have hk : k ∉ l.map Prod.fst := (assocFind_eq_none_iff l k).mp hf
  unfold uniqKeys at *
  rw [List.map_append]
  refine List.Nodup.append h (by simp) ?_
  intro x hx hmem
  simp at hmem
  subst hmem
  exact hk hx

/-! ## Correlation routing lemmas -/

theorem handleMessage_correlated (p : Pending) (msg : Envelope) (rid : String) (t : Nat)
    (hrid : msg.request_id = some rid) (hne : rid ≠ "") (hfind : assocFind p rid = some t) :
    handleMessage p msg =
      (assocErase p rid,
       HandleAction.settle rid t
         (if msg.type = "error" then SettleOutcome.rejectedError msg.payload
          else SettleOutcome.resolved msg)) := by
  unfold handleMessage
  rw [hrid]
  simp [hne, hfind]

theorem handleMessage_dispatch_inv (p : Pending) (msg : Envelope) (p2 : Pending)
    (m : Envelope) (h : handleMessage p msg = (p2, HandleAction.dispatch m)) :
    p2 = p ∧ m = msg := by
  unfold handleMessage at h
  rcases hr : msg.request_id with _ | rid
  · rw [hr] at h
    simp at h
    exact ⟨h.1.symm, h.2.symm⟩
  · rw [hr] at h
    by_cases he : rid = ""
    · simp [he] at h
      exact ⟨h.1.symm, h.2.symm⟩
    · rcases hf : assocFind p rid with _ | t
      · simp [he, hf] at h
        exact ⟨h.1.symm, h.2.symm⟩
      · simp [he, hf] at h

theorem handleMessage_settle_inv (p : Pending) (msg : Envelope) (p2 : Pending)
    (rid : String) (t : Nat) (o : SettleOutcome)
    (h : handleMessage p msg = (p2, HandleAction.settle rid t o)) :
    msg.request_id = some rid ∧ rid ≠ "" ∧ assocFind p rid = some t ∧
      p2 = assocErase p rid := by
  unfold handleMessage at h
  rcases hr : msg.request_id with _ | rid2
  · rw [hr] at h
    simp at h
  · rw [hr] at h
    by_cases he : rid2 = ""
    · simp [he] at h
    · rcases hf : assocFind p rid2 with _ | t2
      · simp [he, hf] at h
      · simp [he, hf] at h
        obtain ⟨hp2, hr2, ht2, -⟩ := h
        subst hr2
        subst ht2
        exact ⟨by simp [hr], he, hf, hp2.symm⟩

theorem settlesFor_append (rid : String) (a b : List (String × SettleOutcome)) :
    settlesFor rid (a ++ b) = settlesFor rid a + settlesFor rid b := by
  simp [settlesFor, List.filter_append]

theorem settlesFor_cons (rid x : String) (o : SettleOutcome)
    (s : List (String × SettleOutcome)) :
    settlesFor rid ((x, o) :: s) = (if x = rid then 1 else 0) + settlesFor rid s := by
  by_cases h : x = rid
  · simp [settlesFor, List.filter_cons, h]
    omega
  · simp [settlesFor, List.filter_cons, h]

theorem pendInd_cons (a : String) (b : Nat) (rest : Pending) (rid : String) :
    pendInd ((a, b) :: rest) rid = if rid = a then 1 else pendInd rest rid := by
  by_cases h : rid = a <;> simp [pendInd, assocFind, h]

theorem settles_disconnect (p : Pending) (rid : String) (h : uniqKeys p) :
    settlesFor rid (p.map (fun e => (e.1, SettleOutcome.rejectedClosed))) =
      pendInd p rid := by
  induction p with
  | nil => simp [settlesFor, pendInd, assocFind]
  | cons e rest ih =>
      obtain ⟨a, b⟩ := e
      simp only [uniqKeys, List.map_cons, List.nodup_cons] at h
      have ihr := ih h.2
      rw [List.map_cons, settlesFor_cons, ihr, pendInd_cons]
      by_cases hk : rid = a
      · subst hk
        have hrest : assocFind rest rid = none :=
          (assocFind_eq_none_iff rest rid).mpr h.1
        simp [pendInd, hrest]
      · have hak : ¬a = rid := fun hh => hk hh.symm
        simp [hk, hak]

theorem runEvents_cons (p : Pending) (e : WireEvent) (rest : List WireEvent) :
    runEvents p (e :: rest) =
      ((runEvents (stepEvent p e).1 rest).1,
       (stepEvent p e).2 ++ (runEvents (stepEvent p e).1 rest).2) := by
  simp [runEvents]

theorem freshSends_cons (p : Pending) (e : WireEvent) (rest : List WireEvent) :
    freshSends p (e :: rest) =
      ((match e with
        | WireEvent.send rid _ => decide (rid ≠ "") && (assocFind p rid).isNone
        | _ => true)
       && freshSends (stepEvent p e).1 rest) := by
  simp [freshSends]

/-- Main conservation invariant of the pending-request table: along any
well-formed event trace, the number of settles emitted for a correlation id
plus its liveness in the final table equals the number of sendRequest
registrations for it plus its liveness in the initial table. -/
theorem settle_balance (rid : String) (evs : List WireEvent) :
    ∀ (p : Pending), uniqKeys p → freshSends p evs = true →
      settlesFor rid (runEvents p evs).2 + pendInd (runEvents p evs).1 rid
        = countSends rid evs + pendInd p rid := by
  induction evs with
  | nil => intro p _ _; simp [runEvents, settlesFor, countSends]
  | cons e rest ih =>
      intro p hu hf
      rw [freshSends_cons, Bool.and_eq_true] at hf
      have hrun1 : (runEvents p (e :: rest)).1 = (runEvents (stepEvent p e).1 rest).1 := by
        rw [runEvents_cons]
      have hrun2 : (runEvents p (e :: rest)).2
          = (stepEvent p e).2 ++ (runEvents (stepEvent p e).1 rest).2 := by
        rw [runEvents_cons]
      rw [hrun1, hrun2, settlesFor_append]
      cases e with
      | send rid2 t =>
          obtain ⟨hok, hrest⟩ := hf
          simp only [Bool.and_eq_true, decide_eq_true_eq,
            Option.isNone_iff_eq_none] at hok
          obtain ⟨hne, hfind⟩ := hok
          have hset : assocSet p rid2 t = p ++ [(rid2, t)] :=
            assocSet_of_not_found p rid2 t hfind
          have h1 : (stepEvent p (WireEvent.send rid2 t)).1 = assocSet p rid2 t := rfl
          have h2 : (stepEvent p (WireEvent.send rid2 t)).2
              = ([] : List (String × SettleOutcome)) := rfl
          rw [h1] at hrest
          rw [h1, h2]
          have hu2 : uniqKeys (assocSet p rid2 t) := by
            rw [hset]; exact uniqKeys_append_fresh p rid2 t hu hfind
          have ihr := ih (assocSet p rid2 t) hu2 hrest
          have hpend : pendInd (assocSet p rid2 t) rid
              = pendInd p rid + (if rid2 = rid then 1 else 0) := by
            by_cases hr : rid = rid2
            · subst hr
              simp [pendInd, hset, hfind, assocFind_append_of_none p _ rid hfind,
                    assocFind]
            · have hr2 : ¬rid2 = rid := fun hh => hr hh.symm
              rcases hfr : assocFind p rid with _ | v
              · simp [pendInd, hset, assocFind_append_of_none p _ rid hfr, assocFind,
                      hr, hfr, hr2]
              · simp [pendInd, hset, assocFind_append_of_some p _ rid v hfr, hfr, hr2]
          have hcount : countSends rid (WireEvent.send rid2 t :: rest)
              = (if rid2 = rid then 1 else 0) + countSends rid rest := rfl
          have hnil : settlesFor rid ([] : List (String × SettleOutcome)) = 0 := rfl
          rw [hcount, hnil]
          omega
      | recv msg =>
          obtain ⟨-, hrest⟩ := hf
          rcases hm : handleMessage p msg with ⟨p2, act⟩
          cases act with
          | dispatch m =>
              obtain ⟨hp2, -⟩ := handleMessage_dispatch_inv p msg p2 m hm
              subst hp2
              have h1 : (stepEvent p2 (WireEvent.recv msg)).1 = p2 := by
                simp [stepEvent, hm]
              have h2 : (stepEvent p2 (WireEvent.recv msg)).2 = [] := by
                simp [stepEvent, hm]
              rw [h1] at hrest
              rw [h1, h2]
              have ihr := ih p2 hu hrest
              simpa [settlesFor, countSends] using ihr
          | settle rid2 t o =>
              obtain ⟨-, -, hfind, hp2⟩ := handleMessage_settle_inv p msg p2 rid2 t o hm
              subst hp2
              have h1 : (stepEvent p (WireEvent.recv msg)).1 = assocErase p rid2 := by
                simp [stepEvent, hm]
              have h2 : (stepEvent p (WireEvent.recv msg)).2 = [(rid2, o)] := by
                simp [stepEvent, hm]
              rw [h1] at hrest
              rw [h1, h2]
              have hu2 : uniqKeys (assocErase p rid2) := uniqKeys_erase p rid2 hu
              have ihr := ih (assocErase p rid2) hu2 hrest
              have hsingle : settlesFor rid [(rid2, o)]
                  = if rid2 = rid then 1 else 0 := by
                by_cases hr : rid2 = rid <;> simp [settlesFor, hr]
              have herase : pendInd (assocErase p rid2) rid
                  + (if rid2 = rid then 1 else 0) = pendInd p rid := by
                by_cases hr : rid = rid2
                · subst hr
                  simp [pendInd, assocFind_erase, hfind]
                · have hr2 : ¬rid2 = rid := fun hh => hr hh.symm
                  simp [pendInd, assocFind_erase, hr, hr2]
              have hcount : countSends rid (WireEvent.recv msg :: rest)
                  = countSends rid rest := rfl
              rw [hsingle, hcount]
              omega
      | timerFire rid2 =>
          obtain ⟨-, hrest⟩ := hf
          rcases hfr : assocFind p rid2 with _ | t
          · have h1 : (stepEvent p (WireEvent.timerFire rid2)).1 = p := by
              simp [stepEvent, hfr]
            have h2 : (stepEvent p (WireEvent.timerFire rid2)).2 = [] := by
              simp [stepEvent, hfr]
            rw [h1] at hrest
            rw [h1, h2]
            have ihr := ih p hu hrest
            simpa [settlesFor, countSends] using ihr
          · have h1 : (stepEvent p (WireEvent.timerFire rid2)).1 = assocErase p rid2 := by
              simp [stepEvent, hfr]
            have h2 : (stepEvent p (WireEvent.timerFire rid2)).2
                = [(rid2, SettleOutcome.rejectedTimeout)] := by
              simp [stepEvent, hfr]
            rw [h1] at hrest
            rw [h1, h2]
            have hu2 : uniqKeys (assocErase p rid2) := uniqKeys_erase p rid2 hu
            have ihr := ih (assocErase p rid2) hu2 hrest
            have hsingle : settlesFor rid [(rid2, SettleOutcome.rejectedTimeout)]
                = if rid2 = rid then 1 else 0 := by
              by_cases hr : rid2 = rid <;> simp [settlesFor, hr]
            have herase : pendInd (assocErase p rid2) rid
                + (if rid2 = rid then 1 else 0) = pendInd p rid := by
              by_cases hr : rid = rid2
              · subst hr
                simp [pendInd, assocFind_erase, hfr]
              · have hr2 : ¬rid2 = rid := fun hh => hr hh.symm
                simp [pendInd, assocFind_erase, hr, hr2]
            have hcount : countSends rid (WireEvent.timerFire rid2 :: rest)
                = countSends rid rest := rfl
            rw [hsingle, hcount]
            omega
      | disconnect =>
          obtain ⟨-, hrest⟩ := hf
          have h1 : (stepEvent p WireEvent.disconnect).1 = [] := rfl
          have h2 : (stepEvent p WireEvent.disconnect).2
              = p.map (fun e => (e.1, SettleOutcome.rejectedClosed)) := rfl
          rw [h1] at hrest
          rw [h1, h2]
          have ihr := ih [] (by simp [uniqKeys]) hrest
          have hdis := settles_disconnect p rid hu
          have hzero : pendInd ([] : Pending) rid = 0 := by simp [pendInd, assocFind]
          have hcount : countSends rid (WireEvent.disconnect :: rest)
              = countSends rid rest := rfl
          rw [hdis, hcount]
          omega

theorem runEvents_append (xs ys : List WireEvent) :
    ∀ p : Pending,
      runEvents p (xs ++ ys)
        = ((runEvents (runEvents p xs).1 ys).1,
           (runEvents p xs).2 ++ (runEvents (runEvents p xs).1 ys).2) := by
  induction xs with
  | nil => intro p; simp [runEvents]
  | cons e rest ih =>
      intro p
      rw [List.cons_append, runEvents_cons, runEvents_cons, ih (stepEvent p e).1]
      simp [List.append_assoc]

theorem countSends_append (rid : String) (xs ys : List WireEvent) :
    countSends rid (xs ++ ys) = countSends rid xs + countSends rid ys := by
  induction xs with
  | nil => simp [countSends]
  | cons e rest ih =>
      cases e with
      | send r t =>
          simp [countSends, ih]
          omega
      | recv m => simp [countSends, ih]
      | timerFire r => simp [countSends, ih]
      | disconnect => simp [countSends, ih]

/-! ## String-pattern lemmas for track attribution -/

theorem data_ne_nil_of_ne_empty (fid : String) (h : fid ≠ "") : fid.data ≠ [] := by
  intro hh
  apply h
  cases fid with
  | mk d =>
      have hd : d = [] := hh
      subst hd
      rfl

theorem mk_data_eq (fid : String) : String.mk fid.data = fid := by
  cases fid
  rfl

theorem parseStreamFeed_roundtrip (fid : String) (h : fid ≠ "") :
    parseStreamFeed ("truegather-" ++ fid) = some fid := by
  have hd : fid.data ≠ [] := data_ne_nil_of_ne_empty fid h
  unfold parseStreamFeed
  rw [String.data_append]
  have hp : prefixRest "truegather-".data ("truegather-".data ++ fid.data)
      = some fid.data := rfl
  rw [hp]
  simp [hd, mk_data_eq]

theorem parseTrackFeed_audio (fid : String) (h : fid ≠ "") :
    parseTrackFeed (fid ++ "-audio") = some fid := by
  have hd : fid.data ≠ [] := data_ne_nil_of_ne_empty fid h
  have hrev : fid.data.reverse ≠ [] := by simp [hd]
  unfold parseTrackFeed suffixCore
  rw [String.data_append, List.reverse_append]
  have hp : prefixRest "-audio".data.reverse
      ("-audio".data.reverse ++ fid.data.reverse) = some fid.data.reverse := rfl
  rw [hp]
  simp [hd, mk_data_eq]

theorem parseTrackFeed_video (fid : String) (h : fid ≠ "") :
    parseTrackFeed (fid ++ "-video") = some fid := by
  have hd : fid.data ≠ [] := data_ne_nil_of_ne_empty fid h
  have haud : suffixCore "-audio".data (fid ++ "-video").data = none := by
    unfold suffixCore
    rw [String.data_append, List.reverse_append]
    rfl
  unfold parseTrackFeed
  rw [haud]
  unfold suffixCore
  rw [String.data_append, List.reverse_append]
  have hp : prefixRest "-video".data.reverse
      ("-video".data.reverse ++ fid.data.reverse) = some fid.data.reverse := rfl
  rw [hp]
  simp [hd, mk_data_eq]

theorem truegather_append_ne_empty (fid : String) : "truegather-" ++ fid ≠ "" := by
  intro hh
  have : ("truegather-" ++ fid).data = [] := by rw [hh]
  rw [String.data_append] at this
  simp at this

/-! ## Reconnection-policy invariant -/

theorem reconn_step_invariant (c : Nat) (s : WsReconn)
    (h1 : s.reconnectAttempts ≤ 5)
    (h2 : s.schedLog = List.take s.reconnectAttempts [1000, 2000, 4000, 8000, 16000]) :
    (oncloseStep c s).reconnectAttempts ≤ 5 ∧
      (oncloseStep c s).schedLog
        = List.take (oncloseStep c s).reconnectAttempts [1000, 2000, 4000, 8000, 16000] := by
  have htake : ∀ a, a < 5 →
      List.take a ([1000, 2000, 4000, 8000, 16000] : List Nat) ++ [backoffDelay a]
        = List.take (a + 1) [1000, 2000, 4000, 8000, 16000] := by decide
  by_cases hc : c ≠ 1000 ∧ s.reconnectAttempts < 5 ∧ s.currentWsUrl.isSome
  · simp only [oncloseStep, if_pos hc, scheduleReconnect]
    refine ⟨by omega, ?_⟩
    rw [h2, htake s.reconnectAttempts hc.2.1]
  · simp only [oncloseStep, if_neg hc]
    exact ⟨h1, h2⟩

theorem reconn_invariant (codes : List Nat) :
    ∀ s : WsReconn, s.reconnectAttempts ≤ 5 →
      s.schedLog = List.take s.reconnectAttempts [1000, 2000, 4000, 8000, 16000] →
      (runCloses s codes).reconnectAttempts ≤ 5 ∧
        (runCloses s codes).schedLog
          = List.take (runCloses s codes).reconnectAttempts
              [1000, 2000, 4000, 8000, 16000] := by
  induction codes with
  | nil => intro s h1 h2; exact ⟨h1, h2⟩
  | cons c rest ih =>
      intro s h1 h2
      have hstep : runCloses s (c :: rest) = runCloses (oncloseStep c s) rest := rfl
      rw [hstep]
      obtain ⟨g1, g2⟩ := reconn_step_invariant c s h1 h2
      exact ih (oncloseStep c s) g1 g2

/-! ## Synchronizer-coalescing lemma -/

theorem busy_calls_fold (calls : List SyncCallCtx) :
    ∀ s : SyncState, s.inProgress = true → calls ≠ [] →
      calls.foldl (fun st c => requestSyncStep c st) s
        = { inProgress := true, pending := true, runs := s.runs } := by
  induction calls with
  | nil => intro s _ h; exact absurd rfl h
  | cons c rest ih =>
      intro s hs _
      have hstep : requestSyncStep c s = { s with pending := true } := by
        simp [requestSyncStep, hs]
      rw [List.foldl_cons, hstep]
      by_cases hr : rest = []
      · subst hr
        rcases s with ⟨ip, pd, rn⟩
        have hip : ip = true := hs
        subst hip
        rfl
      · exact ih _ hs hr

/-! ## Handler-dispatch lemmas -/

theorem runHandlers_no_throw (hs : List Handler) (h : ∀ x ∈ hs, x.throws = false) :
    runHandlers hs = (hs.map Handler.hid, false) := by
  induction hs with
  | nil => rfl
  | cons x rest ih =>
      have hx : x.throws = false := h x (List.mem_cons_self x rest)
      have hr := ih (fun y hy => h y (List.mem_cons_of_mem x hy))
      simp [runHandlers, hx, hr]

theorem runHandlers_throws_at (pre post : List Handler) (h : Handler)
    (hpre : ∀ g ∈ pre, g.throws = false) (hh : h.throws = true) :
    runHandlers (pre ++ h :: post) = (pre.map Handler.hid ++ [h.hid], true) := by
  induction pre with
  | nil => simp [runHandlers, hh]
  | cons g rest ih =>
      have hg : g.throws = false := hpre g (List.mem_cons_self g rest)
      have hr := ih (fun y hy => hpre y (List.mem_cons_of_mem g hy))
      simp [runHandlers, hg, hr]

/-! ## Claim theorems -/

/-- C1: a decoded inbound frame whose correlation id matches an outstanding
PendingRequest settles exactly that request: the entry is removed from the
table, its timeout timer is the one cancelled, and the request is rejected
with the decoded error message when the envelope type is the reserved error
tag, otherwise resolved with the envelope; the result is a settle action,
never a dispatch, so no type or wildcard handler sees the frame.
Consequently, over any trace with well-formed id allocation started from an
empty table, each request settles at most once; a trace torn down by
disconnect settles each request exactly once; and in the reorder scenario
(send A, send B, receive the response of B, then of A) each request resolves
with its own payload. -/
theorem correlated_routing_exactly_once :
    (∀ (p : Pending) (msg : Envelope) (rid : String) (t : Nat),
        msg.request_id = some rid → rid ≠ "" → assocFind p rid = some t →
        handleMessage p msg
          = (assocErase p rid,
             HandleAction.settle rid t
               (if msg.type = "error" then SettleOutcome.rejectedError msg.payload
                else SettleOutcome.resolved msg)))
  ∧ (∀ (p : Pending) (msg m : Envelope) (rid : String) (t : Nat),
        msg.request_id = some rid → rid ≠ "" → assocFind p rid = some t →
        (handleMessage p msg).2 ≠ HandleAction.dispatch m)
  ∧ (∀ (evs : List WireEvent) (rid : String), freshSends [] evs = true →
        settlesFor rid (runEvents [] evs).2 ≤ countSends rid evs)
  ∧ (∀ (evs : List WireEvent) (rid : String),
        freshSends [] (evs ++ [WireEvent.disconnect]) = true →
        settlesFor rid (runEvents [] (evs ++ [WireEvent.disconnect])).2
          = countSends rid evs)
  ∧ runEvents []
      [WireEvent.send "req_a" 0, WireEvent.send "req_b" 1,
       WireEvent.recv { type := "ok", request_id := some "req_b", payload := "pb" },
       WireEvent.recv { type := "ok", request_id := some "req_a", payload := "pa" }]
      = ([],
         [("req_b", SettleOutcome.resolved
             { type := "ok", request_id := some "req_b", payload := "pb" }),
          ("req_a", SettleOutcome.resolved
             { type := "ok", request_id := some "req_a", payload := "pa" })]) := by
  refine ⟨fun p msg rid t h1 h2 h3 => handleMessage_correlated p msg rid t h1 h2 h3,
    ?_, ?_, ?_, by decide⟩
  · intro p msg m rid t h1 h2 h3
    rw [handleMessage_correlated p msg rid t h1 h2 h3]
    simp
  · intro evs rid hf
    have hb := settle_balance rid evs [] (by simp [uniqKeys]) hf
    have h0 : pendInd ([] : Pending) rid = 0 := by simp [pendInd, assocFind]
    omega
  · intro evs rid hf
    have hb := settle_balance rid (evs ++ [WireEvent.disconnect]) []
      (by simp [uniqKeys]) hf
    have h0 : pendInd ([] : Pending) rid = 0 := by simp [pendInd, assocFind]
    have hfin : (runEvents [] (evs ++ [WireEvent.disconnect])).1 = [] := by
      rw [runEvents_append]
      rfl
    have hcnt := countSends_append rid evs [WireEvent.disconnect]
    have hone : countSends rid [WireEvent.disconnect] = 0 := rfl
    rw [hfin] at hb
    omega

/-- Witness for C1: a correlated response settles its request at a concrete
table, and a request that timed out in a concrete trace settles no more
often than it was sent. -/
theorem correlated_routing_exactly_once_witness :
    handleMessage [("req_1", 5)]
        { type := "subscribe_ok", request_id := some "req_1", payload := "x" }
      = ([], HandleAction.settle "req_1" 5
          (SettleOutcome.resolved
            { type := "subscribe_ok", request_id := some "req_1", payload := "x" }))
    ∧ settlesFor "req_1"
        (runEvents [] [WireEvent.send "req_1" 5, WireEvent.timerFire "req_1"]).2
      ≤ countSends "req_1" [WireEvent.send "req_1" 5, WireEvent.timerFire "req_1"] := by
  constructor
  · rw [correlated_routing_exactly_once.1 [("req_1", 5)]
        { type := "subscribe_ok", request_id := some "req_1", payload := "x" }
        "req_1" 5 rfl (by decide) (by decide)]
    decide
  · exact correlated_routing_exactly_once.2.2.1
      [WireEvent.send "req_1" 5, WireEvent.timerFire "req_1"] "req_1" (by decide)

/-- C2: every call to syncSubscriptions arriving while a sync is in progress
only sets the pending flag (the run log and the in-progress flag are
unchanged); when the in-flight sync completes — success and failure take the
same completion path — exactly one follow-up sync starts, and its feed set
is computed from the roster as it stands at completion time; the follow-up's
own completion leaves the in-progress flag clear and starts nothing further;
and the in-progress flag is cleared by every completion with no pending
request. -/
theorem sync_burst_coalesces (s : SyncState) (calls : List SyncCallCtx)
    (ctxF ctxG : SyncCallCtx) (b b2 b3 : Bool)
    (hin : s.inProgress = true) (hne : calls ≠ [])
    (hj : ctxF.joined = true) (hc : ctxF.connected = true) :
    (calls.foldl (fun st c => requestSyncStep c st) s).runs = s.runs
  ∧ (calls.foldl (fun st c => requestSyncStep c st) s).inProgress = true
  ∧ (calls.foldl (fun st c => requestSyncStep c st) s).pending = true
  ∧ completeStep b ctxF (calls.foldl (fun st c => requestSyncStep c st) s)
      = completeStep b2 ctxF (calls.foldl (fun st c => requestSyncStep c st) s)
  ∧ (completeStep b ctxF (calls.foldl (fun st c => requestSyncStep c st) s)).runs
      = s.runs ++ [computeFeeds ctxF.roster ctxF.uid]
  ∧ (completeStep b ctxF (calls.foldl (fun st c => requestSyncStep c st) s)).pending
      = false
  ∧ (completeStep b ctxF (calls.foldl (fun st c => requestSyncStep c st) s)).inProgress
      = true
  ∧ (completeStep b3 ctxG
        (completeStep b ctxF
          (calls.foldl (fun st c => requestSyncStep c st) s))).inProgress = false
  ∧ (completeStep b3 ctxG
        (completeStep b ctxF
          (calls.foldl (fun st c => requestSyncStep c st) s))).runs
      = s.runs ++ [computeFeeds ctxF.roster ctxF.uid]
  ∧ (∀ (st : SyncState) (bb : Bool) (cc : SyncCallCtx), st.pending = false →
        (completeStep bb cc st).inProgress = false) := by
  have hfold := busy_calls_fold calls s hin hne
  rw [hfold]
  have hcomp : completeStep b ctxF
      { inProgress := true, pending := true, runs := s.runs }
      = { inProgress := true, pending := false,
          runs := s.runs ++ [computeFeeds ctxF.roster ctxF.uid] } := by
    simp [completeStep, requestSyncStep, hj, hc]
  refine ⟨rfl, rfl, rfl, rfl, ?_, ?_, ?_, ?_, ?_, ?_⟩
  · rw [hcomp]
  · rw [hcomp]
  · rw [hcomp]
  · rw [hcomp]
    simp [completeStep]
  · rw [hcomp]
    simp [completeStep]
  · intro st bb cc hp
    simp [completeStep, hp]

/-- Witness for C2: a single burst call during an in-flight sync, whose
completion against a one-publisher roster runs exactly one follow-up sync
over that publisher's feed. -/
theorem sync_burst_coalesces_witness :
    (completeStep false ⟨true, true, [⟨"f1", "Alice", "u2"⟩], "u1"⟩
      (List.foldl (fun st c => requestSyncStep c st)
        ⟨true, false, []⟩
        [⟨true, true, [], "u1"⟩])).runs
      = [["f1"]] := by
  have h := (sync_burst_coalesces
      ⟨true, false, []⟩
      [⟨true, true, [], "u1"⟩]
      ⟨true, true, [⟨"f1", "Alice", "u2"⟩], "u1"⟩
      ⟨true, true, [], "u1"⟩
      false false false rfl (by simp) rfl rfl).2.2.2.2.1
  rw [h]
  decide

/-- C3: the answer gate of subscribeMultiple only returns an SDP that is the
generated local description and contains the a=ice-ufrag session-security
attribute; a missing local description, or one lacking the attribute, makes
the operation throw NegotiationFailed instead of returning. -/
theorem negotiation_answer_gate :
    (∀ (o : Option String) (sdp : String), checkLocalAnswer o = Except.ok sdp →
        o = some sdp ∧ strIncludes sdp "a=ice-ufrag" = true)
  ∧ checkLocalAnswer none = Except.error "Local SDP missing ice-ufrag"
  ∧ (∀ sdp : String, strIncludes sdp "a=ice-ufrag" = false →
        checkLocalAnswer (some sdp) = Except.error "Local SDP missing ice-ufrag") := by
  refine ⟨?_, rfl, ?_⟩
  · intro o sdp h
    cases o with
    | none => simp [checkLocalAnswer] at h
    | some s =>
        simp only [checkLocalAnswer] at h
        by_cases hcond : s = "" ∨ strIncludes s "a=ice-ufrag" = false
        · rw [if_pos hcond] at h
          simp at h
        · rw [if_neg hcond] at h
          have hs : s = sdp := by
            simpa using h
          subst hs
          push_neg at hcond
          exact ⟨rfl, by
            rcases hb : strIncludes s "a=ice-ufrag" with _ | _
            · exact absurd hb hcond.2
            · rfl⟩
  · intro sdp h
    simp only [checkLocalAnswer]
    rw [if_pos (Or.inr h)]

/-- Witness for C3: a concrete well-formed answer passes the gate, and a
concrete answer without the attribute is refused. -/
theorem negotiation_answer_gate_witness :
    ((some "v=0 a=ice-ufrag:abcd" : Option String) = some "v=0 a=ice-ufrag:abcd"
      ∧ strIncludes "v=0 a=ice-ufrag:abcd" "a=ice-ufrag" = true)
    ∧ checkLocalAnswer (some "v=0")
        = Except.error "Local SDP missing ice-ufrag" :=
  ⟨negotiation_answer_gate.1 (some "v=0 a=ice-ufrag:abcd") "v=0 a=ice-ufrag:abcd"
      rfl,
   negotiation_answer_gate.2.2 "v=0" (by decide)⟩

/-- C4: inbound-track feed attribution follows two ordered strategies — the
grouping-stream id against the truegather- prefix pattern, else the track id
against the -audio or -video suffix pattern — with fallback to the first
desired feed id, and the track is dropped when nothing matches and the
desired set is empty; in particular truegather-feed42 binds to feed42, and
feed42-audio with no usable stream id binds to feed42; a track id already in
the feed's stream is not added again, so audio and video accumulate. -/
theorem track_attribution :
    (∀ (fid tid : String) (feeds : List String), fid ≠ "" →
        assignFeed (some ("truegather-" ++ fid)) tid feeds = some fid)
  ∧ (∀ (fid : String) (feeds : List String), fid ≠ "" →
        assignFeed none (fid ++ "-audio") feeds = some fid)
  ∧ (∀ (fid : String) (feeds : List String), fid ≠ "" →
        assignFeed none (fid ++ "-video") feeds = some fid)
  ∧ (∀ (so : Option String) (tid f : String) (rest : List String),
        streamFeedOf so = none → parseTrackFeed tid = none → f ≠ "" →
        assignFeed so tid (f :: rest) = some f)
  ∧ (∀ (so : Option String) (tid : String),
        streamFeedOf so = none → parseTrackFeed tid = none →
        assignFeed so tid [] = none)
  ∧ assignFeed (some "truegather-feed42") "arbitrary-id" [] = some "feed42"
  ∧ assignFeed none "feed42-audio" [] = some "feed42"
  ∧ (∀ (tracks : List String) (tid : String), tid ∈ tracks →
        addTrackIfNew tracks tid = tracks)
  ∧ (∀ (tracks : List String) (tid : String), tid ∉ tracks →
        addTrackIfNew tracks tid = tracks ++ [tid])
  ∧ addTrackIfNew (addTrackIfNew [] "feed42-audio") "feed42-video"
      = ["feed42-audio", "feed42-video"] := by
  refine ⟨?_, ?_, ?_, ?_, ?_, by decide, by decide, ?_, ?_, by decide⟩
  · intro fid tid feeds h
    unfold assignFeed streamFeedOf
    simp [truegather_append_ne_empty fid, parseStreamFeed_roundtrip fid h]
  · intro fid feeds h
    unfold assignFeed streamFeedOf
    simp [parseTrackFeed_audio fid h]
  · intro fid feeds h
    unfold assignFeed streamFeedOf
    simp [parseTrackFeed_video fid h]
  · intro so tid f rest h1 h2 h3
    unfold assignFeed
    rw [h1, h2]
    simp [h3]
  · intro so tid h1 h2
    unfold assignFeed
    rw [h1, h2]
  · intro tracks tid h
    simp [addTrackIfNew, h]
  · intro tracks tid h
    simp [addTrackIfNew, h]

/-- Witness for C4: both strategies at the feed id feed7, applied through
the general statements. -/
theorem track_attribution_witness :
    assignFeed (some ("truegather-" ++ "feed7")) "t0" ["fallback"] = some "feed7"
    ∧ assignFeed none ("feed7" ++ "-audio") [] = some "feed7" :=
  ⟨track_attribution.1 "feed7" "t0" ["fallback"] (by decide),
   track_attribution.2.1 "feed7" [] (by decide)⟩

/-- C5: after unexpected closes the channel schedules at most 5 reconnection
attempts; the scheduled backoff delays start at 1000 ms and double each
attempt (1000, 2000, 4000, 8000, 16000 over a full run), are strictly
increasing, and never exceed the 30000 ms cap; disconnect clears the
scheduled timer and makes every later close schedule nothing. -/
theorem reconnect_backoff (u : String) (codes : List Nat) (s : WsReconn) :
    (runCloses (freshReconn u) codes).schedLog.length ≤ 5
  ∧ List.Pairwise (· < ·) (runCloses (freshReconn u) codes).schedLog
  ∧ (∀ d ∈ (runCloses (freshReconn u) codes).schedLog, 1000 ≤ d ∧ d ≤ 30000)
  ∧ (runCloses (freshReconn "ws://relay") [1006, 1006, 1006, 1006, 1006, 1006]).schedLog
      = [1000, 2000, 4000, 8000, 16000]
  ∧ (disconnectReconn s).reconnectTimer = none
  ∧ (∀ c2 : Nat, oncloseStep c2 (disconnectReconn s) = disconnectReconn s) := by
  obtain ⟨h1, h2⟩ := reconn_invariant codes (freshReconn u)
    (by simp [freshReconn]) (by simp [freshReconn])
  refine ⟨?_, ?_, ?_, by decide, rfl, ?_⟩
  · rw [h2, List.length_take]
    omega
  · rw [h2]
    have hch : ∀ k, k < 6 →
        List.Pairwise (· < ·)
          (List.take k ([1000, 2000, 4000, 8000, 16000] : List Nat)) := by decide
    exact hch _ (by omega)
  · rw [h2]
    have hbd : ∀ k, k < 6 →
        ∀ d ∈ List.take k ([1000, 2000, 4000, 8000, 16000] : List Nat),
          1000 ≤ d ∧ d ≤ 30000 := by decide
    exact hbd _ (by omega)
  · intro c2
    simp [oncloseStep, disconnectReconn]

/-- Witness for C5: the first scheduled delay in a concrete one-close run
lies within the starting value and the cap. -/
theorem reconnect_backoff_witness :
    (1000 : Nat) ∈ (runCloses (freshReconn "ws://x") [1006]).schedLog
    ∧ (1000 ≤ 1000 ∧ (1000 : Nat) ≤ 30000) :=
  ⟨by decide,
   (reconnect_backoff "ws://x" [1006] ⟨0, none, none, []⟩).2.2.1 1000 (by decide)⟩

/-- C6 counterexample: the claim says disconnect resets internal counters
including the reconnect attempt counter, but disconnect leaves the counter
untouched — from a state with 3 attempts it is still 3, not 0, afterwards
(only a successful open resets it). -/
theorem disconnect_counter_cex :
    (disconnectChannel
        { ws := some 1, isConnected := true, pending := [("req_a", 7)],
          reconnectTimer := some 11, currentWsUrl := some "ws://x",
          reconnectAttempts := 3 }).1.reconnectAttempts = 3
    ∧ (3 : Nat) ≠ 0 := by decide

/-- C6 (amended): disconnect cancels the pending reconnection timer, closes
the transport with normal-closure code 1000, clears each outstanding
request's timeout and rejects it with the channel-closed error, empties the
pending table and forgets the url; the reconnect attempt counter is NOT
reset (it is reset only when a connection opens); a second disconnect leaves
the state unchanged and performs no effect. -/
theorem disconnect_teardown (s : ChannelState) :
    (disconnectChannel s).1.reconnectTimer = none
  ∧ (disconnectChannel s).1.currentWsUrl = none
  ∧ (disconnectChannel s).1.ws = none
  ∧ (disconnectChannel s).1.isConnected = false
  ∧ (disconnectChannel s).1.pending = []
  ∧ (∀ t, s.reconnectTimer = some t →
        TeardownEffect.clearTimer t ∈ (disconnectChannel s).2)
  ∧ (∀ sock, s.ws = some sock →
        TeardownEffect.closeSocket sock 1000 "Client disconnect"
          ∈ (disconnectChannel s).2)
  ∧ (∀ e ∈ s.pending,
        TeardownEffect.rejectPending e.1 "WebSocket disconnected"
          ∈ (disconnectChannel s).2)
  ∧ (disconnectChannel s).1.reconnectAttempts = s.reconnectAttempts
  ∧ disconnectChannel (disconnectChannel s).1 = ((disconnectChannel s).1, []) := by
  refine ⟨rfl, rfl, rfl, rfl, rfl, ?_, ?_, ?_, rfl, rfl⟩
  · intro t ht
    simp [disconnectChannel, ht]
  · intro sock hs2
    simp [disconnectChannel, hs2]
  · intro e he
    simp only [disconnectChannel, List.mem_append, List.mem_flatMap]
    refine Or.inr ⟨e, he, ?_⟩
    simp

/-- Witness for C6: the concrete teardown effects of a state with one live
socket, one scheduled reconnect and one outstanding request. -/
theorem disconnect_teardown_witness :
    TeardownEffect.clearTimer 11 ∈ (disconnectChannel
        { ws := some 1, isConnected := true, pending := [("req_a", 7)],
          reconnectTimer := some 11, currentWsUrl := some "ws://y",
          reconnectAttempts := 2 }).2
    ∧ TeardownEffect.rejectPending "req_a" "WebSocket disconnected"
        ∈ (disconnectChannel
            { ws := some 1, isConnected := true, pending := [("req_a", 7)],
              reconnectTimer := some 11, currentWsUrl := some "ws://y",
              reconnectAttempts := 2 }).2 := by
  constructor
  · exact (disconnect_teardown
      { ws := some 1, isConnected := true, pending := [("req_a", 7)],
        reconnectTimer := some 11, currentWsUrl := some "ws://y",
        reconnectAttempts := 2 }).2.2.2.2.2.1 11 rfl
  · exact (disconnect_teardown
      { ws := some 1, isConnected := true, pending := [("req_a", 7)],
        reconnectTimer := some 11, currentWsUrl := some "ws://y",
        reconnectAttempts := 2 }).2.2.2.2.2.2.2.1 ("req_a", 7) (by decide)

/-- C7 counterexample: the claim says a handler exception is isolated, but
an exception thrown by the first typed handler escapes the forEach loop and
is caught only by the frame-level catch, so the second typed handler and the
wildcard handler are never invoked for that frame. -/
theorem handler_isolation_cex :
    dispatchFrame [{ hid := 0, throws := true }, { hid := 1, throws := false }]
        [{ hid := 2, throws := false }] = [0]
    ∧ (1 : Nat) ∉ dispatchFrame
        [{ hid := 0, throws := true }, { hid := 1, throws := false }]
        [{ hid := 2, throws := false }]
    ∧ (2 : Nat) ∉ dispatchFrame
        [{ hid := 0, throws := true }, { hid := 1, throws := false }]
        [{ hid := 2, throws := false }] := by decide

/-- C7 (amended): handlers are invoked in registration order, and when no
handler throws, every handler registered for the type and every wildcard
handler receives the message; but an exception thrown by one handler is NOT
isolated — it aborts delivery to the remaining handlers of that type and to
all wildcard handlers (the exception is contained by the frame-level catch,
so the channel itself survives). -/
theorem handler_dispatch_order (typed wildcard : List Handler) :
    ((∀ h ∈ typed, h.throws = false) → (∀ h ∈ wildcard, h.throws = false) →
        dispatchFrame typed wildcard
          = typed.map Handler.hid ++ wildcard.map Handler.hid)
  ∧ (∀ (pre post : List Handler) (h : Handler),
        typed = pre ++ h :: post → (∀ g ∈ pre, g.throws = false) →
        h.throws = true →
        dispatchFrame typed wildcard = pre.map Handler.hid ++ [h.hid]) := by
  constructor
  · intro ht hw
    unfold dispatchFrame
    rw [runHandlers_no_throw typed ht, runHandlers_no_throw wildcard hw]
    simp
  · intro pre post h heq hpre hh
    subst heq
    unfold dispatchFrame
    rw [runHandlers_throws_at pre post h hpre hh]
    simp

/-- Witness for C7: a two-handler registry with a wildcard handler, none
throwing, delivers to all three in registration order. -/
theorem handler_dispatch_order_witness :
    dispatchFrame [{ hid := 3, throws := false }, { hid := 4, throws := false }]
        [{ hid := 5, throws := false }] = [3, 4, 5] := by
  have h := (handler_dispatch_order
      [{ hid := 3, throws := false }, { hid := 4, throws := false }]
      [{ hid := 5, throws := false }]).1 (by decide) (by decide)
  rw [h]
  decide

/-- C8: sendRequest called with no socket or with the connected flag down
throws WebSocket-not-connected before any registration: the returned state
is the input state (in particular the pending table is unchanged), no
timeout timer is started and nothing is transmitted. -/
theorem sendRequest_not_connected (s : ChannelState) (reqType payload rid : String)
    (timerId : Nat) (h : s.ws = none ∨ s.isConnected = false) :
    sendRequest s reqType payload rid timerId
      = { state := s, timerStarted := none, sent := none,
          err := some "WebSocket not connected" }
    ∧ (sendRequest s reqType payload rid timerId).state.pending = s.pending := by
  have hcond : (s.ws.isNone || !s.isConnected) = true := by
    rcases h with h | h <;> simp [h]
  constructor
  · unfold sendRequest
    rw [if_pos hcond]
  · unfold sendRequest
    rw [if_pos hcond]

/-- Witness for C8: a subscribe request on a fresh disconnected channel is
rejected with no pending entry left behind. -/
theorem sendRequest_not_connected_witness :
    sendRequest ⟨none, false, [], none, none, 0⟩ "subscribe" "feeds" "req_9" 42
      = { state := ⟨none, false, [], none, none, 0⟩, timerStarted := none,
          sent := none, err := some "WebSocket not connected" } :=
  (sendRequest_not_connected ⟨none, false, [], none, none, 0⟩
    "subscribe" "feeds" "req_9" 42 (Or.inl rfl)).1

/-- C9 counterexample: publisher join and publisher leave both invoke
syncSubscriptions, but the claim also says a transport reconnection forces a
resync — the reconnect path runs the onOpen actions of connect, and no sync
invocation occurs there (and no other code reacts to the re-established
connection). -/
theorem resync_triggers_cex :
    RoomAction.invokeSyncSubscriptions ∈ publisherJoinedActions "f1" "Alice" "u1"
    ∧ RoomAction.invokeSyncSubscriptions
        ∈ publisherLeftActions
            [{ feed_id := "f1", display := "Alice", user_id := "u1" }] "f1"
    ∧ SigAction.invokeSyncSubscriptions ∉ onOpenActions "ws://relay" := by decide

/-- C9 (amended): a publisher join always requests a sync; a publisher leave
for a feed present in the roster requests a sync; a transport reconnection
does not — the open path of a reconnect performs no sync invocation. -/
theorem resync_triggers (f d u url : String) (roster : List Publisher)
    (pub : Publisher) :
    RoomAction.invokeSyncSubscriptions ∈ publisherJoinedActions f d u
  ∧ (findPublisher roster f = some pub →
      RoomAction.invokeSyncSubscriptions ∈ publisherLeftActions roster f)
  ∧ SigAction.invokeSyncSubscriptions ∉ onOpenActions url := by
  refine ⟨?_, ?_, ?_⟩
  · unfold publisherJoinedActions
    by_cases hu : u = "" <;> simp [hu]
  · intro hp
    unfold publisherLeftActions
    rw [hp]
    by_cases hpu : pub.user_id = "" <;> simp [hpu]
  · unfold onOpenActions
    simp

/-- Witness for C9: the leave of a known publisher triggers a sync. -/
theorem resync_triggers_witness :
    RoomAction.invokeSyncSubscriptions
      ∈ publisherLeftActions
          [{ feed_id := "f1", display := "A", user_id := "u1" }] "f1" :=
  (resync_triggers "f1" "A" "u1" "ws://x"
      [{ feed_id := "f1", display := "A", user_id := "u1" }]
      { feed_id := "f1", display := "A", user_id := "u1" }).2.1 (by decide)

/-- C10: subscribeMultiple over two feeds stores one entry per feed, both
referencing the same newly created peer connection; unsubscribing one of
them closes that shared connection and removes only that entry, so the other
feed's entry stays in the map while its referenced connection is closed. -/
theorem group_unsubscribe_shared_pc (s : SubscriberState) (f1 f2 : String)
    (ds us : List String) (h12 : f1 ≠ f2) (hfresh : s.nextPcId ∉ s.closedPcs) :
    ∃ e1 e2 : SubEntry,
      assocFind (subscribeMultipleStep s [f1, f2] ds us).subscriptions f1 = some e1
      ∧ assocFind (subscribeMultipleStep s [f1, f2] ds us).subscriptions f2 = some e2
      ∧ e1.pcId = s.nextPcId
      ∧ e2.pcId = s.nextPcId
      ∧ s.nextPcId ∉ (subscribeMultipleStep s [f1, f2] ds us).closedPcs
      ∧ assocFind
          (unsubscribeStep (subscribeMultipleStep s [f1, f2] ds us) f1).subscriptions
          f1 = none
      ∧ assocFind
          (unsubscribeStep (subscribeMultipleStep s [f1, f2] ds us) f1).subscriptions
          f2 = some e2
      ∧ s.nextPcId
          ∈ (unsubscribeStep (subscribeMultipleStep s [f1, f2] ds us) f1).closedPcs := by
  have hsubs : (subscribeMultipleStep s [f1, f2] ds us).subscriptions
      = assocSet
          (assocSet s.subscriptions f1
            { feedId := f1, pcId := s.nextPcId, remoteStream := none,
              display := String.intercalate "," ds,
              userId := String.intercalate "," us })
          f2
          { feedId := f2, pcId := s.nextPcId, remoteStream := none,
            display := String.intercalate "," ds,
            userId := String.intercalate "," us } := rfl
  have hf1 : assocFind (subscribeMultipleStep s [f1, f2] ds us).subscriptions f1
      = some { feedId := f1, pcId := s.nextPcId, remoteStream := none,
               display := String.intercalate "," ds,
               userId := String.intercalate "," us } := by
    rw [hsubs, assocFind_set, if_neg h12, assocFind_set, if_pos rfl]
  have hf2 : assocFind (subscribeMultipleStep s [f1, f2] ds us).subscriptions f2
      = some { feedId := f2, pcId := s.nextPcId, remoteStream := none,
               display := String.intercalate "," ds,
               userId := String.intercalate "," us } := by
    rw [hsubs, assocFind_set, if_pos rfl]
  have hun : unsubscribeStep (subscribeMultipleStep s [f1, f2] ds us) f1
      = { subscriptions :=
            assocErase (subscribeMultipleStep s [f1, f2] ds us).subscriptions f1,
          closedPcs :=
            (subscribeMultipleStep s [f1, f2] ds us).closedPcs ++ [s.nextPcId],
          nextPcId := (subscribeMultipleStep s [f1, f2] ds us).nextPcId } := by
    unfold unsubscribeStep
    rw [hf1]
  refine ⟨_, _, hf1, hf2, rfl, rfl, hfresh, ?_, ?_, ?_⟩
  · rw [hun]
    simp only
    rw [assocFind_erase, if_pos rfl]
  · rw [hun]
    simp only
    rw [assocFind_erase, if_neg (fun hh => h12 hh.symm), hf2]
  · rw [hun]
    simp

/-- Witness for C10: the concrete two-feed group from a fresh subscriber
state. -/
theorem group_unsubscribe_shared_pc_witness :
    ∃ e1 e2 : SubEntry,
      assocFind (subscribeMultipleStep
          { subscriptions := [], closedPcs := [], nextPcId := 0 }
          ["f1", "f2"] [] []).subscriptions "f1" = some e1
      ∧ assocFind (subscribeMultipleStep
          { subscriptions := [], closedPcs := [], nextPcId := 0 }
          ["f1", "f2"] [] []).subscriptions "f2" = some e2
      ∧ e1.pcId = ({ subscriptions := [], closedPcs := [], nextPcId := 0 }
          : SubscriberState).nextPcId
      ∧ e2.pcId = ({ subscriptions := [], closedPcs := [], nextPcId := 0 }
          : SubscriberState).nextPcId
      ∧ ({ subscriptions := [], closedPcs := [], nextPcId := 0 }
          : SubscriberState).nextPcId
          ∉ (subscribeMultipleStep
              { subscriptions := [], closedPcs := [], nextPcId := 0 }
              ["f1", "f2"] [] []).closedPcs
      ∧ assocFind (unsubscribeStep (subscribeMultipleStep
          { subscriptions := [], closedPcs := [], nextPcId := 0 }
          ["f1", "f2"] [] []) "f1").subscriptions "f1" = none
      ∧ assocFind (unsubscribeStep (subscribeMultipleStep
          { subscriptions := [], closedPcs := [], nextPcId := 0 }
          ["f1", "f2"] [] []) "f1").subscriptions "f2" = some e2
      ∧ ({ subscriptions := [], closedPcs := [], nextPcId := 0 }
          : SubscriberState).nextPcId
          ∈ (unsubscribeStep (subscribeMultipleStep
              { subscriptions := [], closedPcs := [], nextPcId := 0 }
              ["f1", "f2"] [] []) "f1").closedPcs :=
  group_unsubscribe_shared_pc
    { subscriptions := [], closedPcs := [], nextPcId := 0 }
    "f1" "f2" [] [] (by decide) (by decide)

end TrueGather